import Mathlib

/-!
Shallow embedding of the temperature-log dashboard pipeline (src/main.py):
the normalizer (`process_data`), the aggregator (`calculate_statistics`) and
the filter/resample engine (the inline block of `main`, lines 244-282, called
`applyView` after the contract in the specification).

Modelling conventions:
* a timestamp is a number of minutes since an arbitrary epoch (`Nat`);
  the calendar date of a timestamp `t` is `t / 1440`, midnight of day `d`
  is `d * 1440` — this mirrors `pandas.Timestamp(date)` which places a
  bare date at midnight;
* a temperature cell after `pd.to_numeric(..., errors="coerce")` is an
  `Option ℚ`, `none` standing for NaN (missing);
* the `out/in` column is a plain string (the code casts it with
  `astype(str)` and never validates it), embedded as the field `out_in`;
* pandas `.resample(rule).mean()` produces one bin for every rule-sized
  step from the floor of the smallest index value to the floor of the
  largest one, the mean of a bin skipping NaN values and an empty bin
  (or a bin whose values are all NaN) yielding NaN; this is embedded
  literally in `resampleSeries`;
* a Python value that can be either `None` or a float that can itself be
  NaN (the per-location statistics) is an `Option (Option ℚ)`: the outer
  layer is the Python `None`, the inner one is NaN.
-/

namespace TempDash

/-- Reading is one row of the processed dataframe: a parsed timestamp in
minutes, a coerced (possibly missing) temperature, and the raw text of the
`out/in` column. -/
structure Reading where
  noted_date : Nat
  temp : Option ℚ
  out_in : String
  deriving DecidableEq, Repr

/-- Rule is the pandas resample rule selected in the UI: `"H"` or `"D"`. -/
inductive Rule where
  | H
  | D
  deriving DecidableEq, Repr

/-- bucketStep is the width of a resample bin in minutes. -/
def bucketStep : Rule → Nat
  | .H => 60
  | .D => 1440

/-- bucketFloor maps a timestamp to the start of its resample bin, as
pandas does when grouping a DatetimeIndex by a fixed frequency. -/
def bucketFloor (r : Rule) (t : Nat) : Nat :=
  t / bucketStep r * bucketStep r

/-- midnight is `pandas.Timestamp(d)` for a bare date `d`: minute 0 of that
day. -/
def midnight (d : Nat) : Nat := d * 1440

/-- validVals keeps the non-missing values of a column, as every pandas
reduction (`mean`, `min`, `max`) does before reducing. -/
def validVals (l : List (Option ℚ)) : List ℚ := l.filterMap id

/-- meanOpt is `Series.mean()`: the mean of the non-NaN values, NaN
(embedded as `none`) when there is no such value. -/
def meanOpt (l : List (Option ℚ)) : Option ℚ :=
  if validVals l = [] then none
  else some ((validVals l).sum / ((validVals l).length : ℚ))

/-- minOpt is `Series.min()`: the least non-NaN value, NaN when there is
none. -/
def minOpt (l : List (Option ℚ)) : Option ℚ :=
  match validVals l with
  | [] => none
  | v :: vs => some (vs.foldl min v)

/-- maxOpt is `Series.max()`: the greatest non-NaN value, NaN when there is
none. -/
def maxOpt (l : List (Option ℚ)) : Option ℚ :=
  match validVals l with
  | [] => none
  | v :: vs => some (vs.foldl max v)

/-- listMin is `Series.min()` on a timestamp column; the default is only
returned on an empty column, which the callers never pass. -/
def listMin (l : List Nat) (dflt : Nat) : Nat :=
  match l with
  | [] => dflt
  | x :: xs => xs.foldl Nat.min x

/-- listMax is `Series.max()` on a timestamp column. -/
def listMax (l : List Nat) (dflt : Nat) : Nat :=
  match l with
  | [] => dflt
  | x :: xs => xs.foldl Nat.max x

/-- binsFrom enumerates `n` bin starts spaced `step` minutes apart, the
first one at `lo`: the DatetimeIndex a pandas resample lays over the span
of its input. -/
def binsFrom (lo step : Nat) : Nat → List Nat
  | 0 => []
  | n + 1 => lo :: binsFrom (lo + step) step n

/-- resampleSeries is `rows.set_index("noted_date")["temp"].resample(rule)
.mean().reset_index()` from lines 271, 274 and 281 of src/main.py: one
output pair per bin from the floor of the earliest timestamp to the floor
of the latest one, carrying the NaN-skipping mean of the temperatures whose
timestamp falls in the bin; an empty input series yields an empty output. -/
def resampleSeries (r : Rule) (rows : List Reading) : List (Nat × Option ℚ) :=
  match rows with
  | [] => []
  | x :: xs =>
    let ts := (x :: xs).map Reading.noted_date
    let lo := bucketFloor r (listMin ts 0)
    let hi := bucketFloor r (listMax ts 0)
    let n := (hi - lo) / bucketStep r + 1
    (binsFrom lo (bucketStep r) n).map fun b =>
      (b, meanOpt (((x :: xs).filter fun y =>
        bucketFloor r y.noted_date = b).map Reading.temp))

/-- locationFiltered is the location filter of lines 247-250 of
src/main.py: `"Indoor Only"` keeps the rows whose `out/in` is `"In"`,
`"Outdoor Only"` those whose `out/in` is `"Out"`, anything else keeps
everything. -/
def locationFiltered (location_filter : String) (rows : List Reading) : List Reading :=
  if location_filter = "Indoor Only" then rows.filter fun x => x.out_in = "In"
  else if location_filter = "Outdoor Only" then rows.filter fun x => x.out_in = "Out"
  else rows

/-- dateFiltered is the date-range filter of lines 253-260 of src/main.py:
when exactly two dates were supplied both are converted to midnight
timestamps and the row timestamp must lie between them inclusively;
otherwise no filtering happens. -/
def dateFiltered (date_range : List Nat) (rows : List Reading) : List Reading :=
  match date_range with
  | [s, e] => rows.filter fun x =>
      midnight s ≤ x.noted_date ∧ x.noted_date ≤ midnight e
  | _ => rows

/-- pyReplaceAux scans the character list once, replacing every occurrence
of `pat` by `repl`; the fuel argument (instantiated with the length of the
scanned string) only makes the recursion structural. -/
def pyReplaceAux (pat repl : List Char) : Nat → List Char → List Char
  | _, [] => []
  | 0, l => l
  | fuel + 1, c :: cs =>
    if pat.isPrefixOf (c :: cs) then
      repl ++ pyReplaceAux pat repl fuel ((c :: cs).drop pat.length)
    else
      c :: pyReplaceAux pat repl fuel cs

/-- pyReplace is the Python string method `s.replace(pat, repl)` for a
non-empty pattern: every occurrence of `pat` in `s` is replaced by `repl`,
scanning left to right without revisiting replaced text. The only call in
src/main.py is `location_filter.replace(" Only", "")` on line 282. -/
def pyReplace (s pat repl : String) : String :=
  String.mk (pyReplaceAux pat.data repl.data s.data.length s.data)

/-- applyView is the filter/resample block of lines 244-282 of src/main.py:
location filter, then date filter, then optional resampling — split by
location when the filter is `"All"`, otherwise resampling the single
filtered series and tagging it with `location_filter.replace(" Only", "")`. -/
def applyView (data : List Reading) (location_filter : String)
    (date_range : List Nat) (resample : Option Rule) : List Reading :=
  let fd := dateFiltered date_range (locationFiltered location_filter data)
  match resample with
  | none => fd
  | some r =>
    if location_filter = "All" then
      let indoor_data := fd.filter fun x => x.out_in = "In"
      let outdoor_data := fd.filter fun x => x.out_in = "Out"
      ((resampleSeries r indoor_data).map fun p => Reading.mk p.1 p.2 "In") ++
      ((resampleSeries r outdoor_data).map fun p => Reading.mk p.1 p.2 "Out")
    else
      (resampleSeries r fd).map fun p =>
        Reading.mk p.1 p.2 (pyReplace location_filter " Only" "")

/-- fullRange is the default value of the date-range widget (lines 221-222
of src/main.py): the calendar dates of the earliest and latest timestamps
of the dataset. -/
def fullRange (data : List Reading) : List Nat :=
  [listMin (data.map Reading.noted_date) 0 / 1440,
   listMax (data.map Reading.noted_date) 0 / 1440]

/-- Stats is the dictionary built by `calculate_statistics`; the
per-location fields are `Option (Option ℚ)` because the code stores the
Python value `None` for an empty partition and otherwise a float that can
itself be NaN. -/
structure Stats where
  total_records : Nat
  avg_temp : Option ℚ
  min_temp : Option ℚ
  max_temp : Option ℚ
  indoor_records : Nat
  outdoor_records : Nat
  avg_indoor_temp : Option (Option ℚ)
  avg_outdoor_temp : Option (Option ℚ)
  min_indoor_temp : Option (Option ℚ)
  min_outdoor_temp : Option (Option ℚ)
  max_indoor_temp : Option (Option ℚ)
  max_outdoor_temp : Option (Option ℚ)
  deriving DecidableEq, Repr

/-- calculate_statistics is lines 104-133 of src/main.py; the argument is
`Option` to embed the `df is None` guard. -/
def calculate_statistics (df : Option (List Reading)) : Option Stats :=
  match df with
  | none => none
  | some rows =>
    if rows = [] then none
    else
      let indoor_data := rows.filter fun x => x.out_in = "In"
      let outdoor_data := rows.filter fun x => x.out_in = "Out"
      some {
        total_records := rows.length
        avg_temp := meanOpt (rows.map Reading.temp)
        min_temp := minOpt (rows.map Reading.temp)
        max_temp := maxOpt (rows.map Reading.temp)
        indoor_records := indoor_data.length
        outdoor_records := outdoor_data.length
        avg_indoor_temp :=
          if indoor_data = [] then none
          else some (meanOpt (indoor_data.map Reading.temp))
        avg_outdoor_temp :=
          if outdoor_data = [] then none
          else some (meanOpt (outdoor_data.map Reading.temp))
        min_indoor_temp :=
          if indoor_data = [] then none
          else some (minOpt (indoor_data.map Reading.temp))
        min_outdoor_temp :=
          if outdoor_data = [] then none
          else some (minOpt (outdoor_data.map Reading.temp))
        max_indoor_temp :=
          if indoor_data = [] then none
          else some (maxOpt (indoor_data.map Reading.temp))
        max_outdoor_temp :=
          if outdoor_data = [] then none
          else some (maxOpt (outdoor_data.map Reading.temp)) }

/-- RawTs is one cell of the uploaded `noted_date` column. A cell either
matches the strict format `%d-%m-%Y %H:%M` (and then also parses under the
permissive parser, possibly to a different instant `tl`, since the
permissive parser may read an ambiguous day/month pair differently), or
parses only permissively, or parses under neither attempt. -/
inductive RawTs where
  | strictTs (t : Nat) (tl : Nat)
  | looseTs (t : Nat)
  | badTs
  deriving DecidableEq, Repr

/-- RawTemp is one cell of the uploaded `temp` column: a numeric literal or
text that `pd.to_numeric` cannot convert. -/
inductive RawTemp where
  | numTemp (q : ℚ)
  | nonNum
  deriving DecidableEq, Repr

/-- RawRow is one row of the uploaded CSV after `pd.read_csv`. -/
structure RawRow where
  noted_date : RawTs
  temp : RawTemp
  out_in : String
  deriving DecidableEq, Repr

/-- parseStrict is `pd.to_datetime(col, format="%d-%m-%Y %H:%M")` on one
cell: it succeeds only on cells matching the strict format. -/
def parseStrict : RawTs → Option Nat
  | .strictTs t _ => some t
  | _ => none

/-- parseLoose is the permissive `pd.to_datetime(col)` on one cell. -/
def parseLoose : RawTs → Option Nat
  | .strictTs _ tl => some tl
  | .looseTs t => some t
  | .badTs => none

/-- toNumericCoerce is `pd.to_numeric(cell, errors="coerce")`: an
unconvertible cell becomes NaN instead of raising. -/
def toNumericCoerce : RawTemp → Option ℚ
  | .numTemp q => some q
  | .nonNum => none

/-- parseAll applies a whole-column datetime parse: pandas `to_datetime`
either converts every cell or raises, so a single failing cell fails the
whole column and nothing is kept. The per-row temperature coercion and the
string cast of `out/in` (lines 68-74 of src/main.py) are applied to the
surviving rows. -/
def parseAll (p : RawTs → Option Nat) : List RawRow → Option (List Reading)
  | [] => some []
  | r :: rs =>
    match p r.noted_date, parseAll p rs with
    | some t, some rest =>
        some (Reading.mk t (toNumericCoerce r.temp) r.out_in :: rest)
    | _, _ => none

/-- process_data is lines 53-76 of src/main.py: try the strict timestamp
format on the whole column; if that raises, try the permissive parse on the
whole column; if that also raises, return `None`. -/
def process_data (df : List RawRow) : Option (List Reading) :=
  match parseAll parseStrict df with
  | some ds => some ds
  | none =>
    match parseAll parseLoose df with
    | some ds => some ds
    | none => none

/-- isStrict tells whether a raw timestamp cell matches the strict format. -/
def isStrict : RawTs → Bool
  | .strictTs _ _ => true
  | _ => false

/-- strictVal is the instant the strict parse assigns to a cell (junk on
cells the strict parse rejects; only used under an all-strict hypothesis). -/
def strictVal : RawTs → Nat
  | .strictTs t _ => t
  | .looseTs t => t
  | .badTs => 0

/-- looseVal is the instant the permissive parse assigns to a cell (junk on
unparseable cells; only used under a no-bad-cell hypothesis). -/
def looseVal : RawTs → Nat
  | .strictTs _ tl => tl
  | .looseTs t => t
  | .badTs => 0

example : bucketFloor .H 75 = 60 := by decide
example : pyReplace "Indoor Only" " Only" "" = "Indoor" := by decide
example : pyReplace "Outdoor Only" " Only" "" = "Outdoor" := by decide
example : meanOpt [some 10, some 20, none] = some 15 := by
  simp [meanOpt, validVals]
  norm_num
example : resampleSeries .H [⟨0, some 10, "In"⟩, ⟨120, some 20, "In"⟩] =
    [(0, some 10), (60, none), (120, some 20)] := by
  simp [resampleSeries, bucketFloor, bucketStep, listMin, listMax, binsFrom,
    meanOpt, validVals]
example : applyView [⟨0, some 10, "In"⟩] "Indoor Only" [] (some .H) =
    [⟨0, some 10, "Indoor"⟩] := by
  simp [applyView, locationFiltered, dateFiltered, resampleSeries, bucketFloor,
    bucketStep, listMin, listMax, binsFrom, meanOpt, validVals, pyReplace,
    pyReplaceAux]

/-! ### Shared lemmas about the embedded pipeline -/

theorem locationFiltered_all (rows : List Reading) :
    locationFiltered "All" rows = rows := by
  simp [locationFiltered]

theorem meanOpt_nil : meanOpt [] = none := rfl

theorem applyView_all_some (data : List Reading) (dr : List Nat) (r : Rule) :
    applyView data "All" dr (some r) =
      ((resampleSeries r ((dateFiltered dr data).filter fun x =>
        x.out_in = "In")).map fun p => Reading.mk p.1 p.2 "In") ++
      ((resampleSeries r ((dateFiltered dr data).filter fun x =>
        x.out_in = "Out")).map fun p => Reading.mk p.1 p.2 "Out") := by
  simp [applyView, locationFiltered]

theorem resampleSeries_snd {r : Rule} {rows : List Reading} {p : Nat × Option ℚ}
    (h : p ∈ resampleSeries r rows) :
    p.2 = meanOpt ((rows.filter fun y =>
      bucketFloor r y.noted_date = p.1).map Reading.temp) := by
  cases rows with
  | nil => simp [resampleSeries] at h
  | cons x xs =>
    simp only [resampleSeries, List.mem_map] at h
    obtain ⟨b, hb, rfl⟩ := h
    rfl

/-! ### C1 -/

/-- C1: with location filter All and a resample bucket requested, every
output row is tagged either "In" or "Out", and its temperature is the mean
of exactly those date-filtered source rows that share the output row
location and fall into the output row bucket — indoor and outdoor readings
are never averaged into one bucket. -/
theorem C1_all_resample_no_mixing (data : List Reading) (dr : List Nat)
    (r : Rule) (row : Reading) (h : row ∈ applyView data "All" dr (some r)) :
    (row.out_in = "In" ∨ row.out_in = "Out") ∧
    row.temp = meanOpt ((((dateFiltered dr data).filter fun x =>
      x.out_in = row.out_in).filter fun x =>
      bucketFloor r x.noted_date = row.noted_date).map Reading.temp) := by
  rw [applyView_all_some] at h
  rcases List.mem_append.mp h with h1 | h1
  · obtain ⟨p, hp, rfl⟩ := List.mem_map.mp h1
    exact ⟨Or.inl rfl, by simpa using resampleSeries_snd hp⟩
  · obtain ⟨p, hp, rfl⟩ := List.mem_map.mp h1
    exact ⟨Or.inr rfl, by simpa using resampleSeries_snd hp⟩

/-- C1 witness: the scenario of the specification — readings (00:00, 10, In),
(00:30, 20, In), (00:15, 5, Out), hourly resample, filter All — produces the
indoor row (00:00, 15, In), whose mean mixes no outdoor value. -/
theorem C1_all_resample_no_mixing_witness :
    ((⟨0, some 15, "In"⟩ : Reading) ∈
      applyView [⟨0, some 10, "In"⟩, ⟨30, some 20, "In"⟩, ⟨15, some 5, "Out"⟩]
        "All" [] (some Rule.H)) ∧
    (((⟨0, some 15, "In"⟩ : Reading).out_in = "In" ∨
      (⟨0, some 15, "In"⟩ : Reading).out_in = "Out") ∧
    (⟨0, some 15, "In"⟩ : Reading).temp = meanOpt ((((dateFiltered []
      [⟨0, some 10, "In"⟩, ⟨30, some 20, "In"⟩, ⟨15, some 5, "Out"⟩]).filter fun x =>
      x.out_in = (⟨0, some 15, "In"⟩ : Reading).out_in).filter fun x =>
      bucketFloor Rule.H x.noted_date =
        (⟨0, some 15, "In"⟩ : Reading).noted_date).map Reading.temp)) := by
  have hm : (⟨0, some 15, "In"⟩ : Reading) ∈
      applyView [⟨0, some 10, "In"⟩, ⟨30, some 20, "In"⟩, ⟨15, some 5, "Out"⟩]
        "All" [] (some Rule.H) := by
    rw [applyView_all_some]
    simp [dateFiltered, resampleSeries, listMin, listMax, bucketFloor,
      bucketStep, binsFrom, meanOpt, validVals]
    norm_num
  exact ⟨hm, C1_all_resample_no_mixing _ _ _ _ hm⟩

/-! ### C2 -/

/-- C2 counterexample: the dataset holds one reading at minute 1439 of day 1
(23:59 of the second day, standing for 2021-01-02 23:59 when day 0 is
2021-01-01); the date range (1, 1) is degenerate-looking but has both
endpoints, and the filter output is empty — the reading is dropped, not
retained, because the end date is converted to its midnight timestamp. -/
theorem C2_end_of_day_dropped :
    applyView [⟨1 * 1440 + 1439, some 10, "In"⟩] "All" [1, 1] none = [] := by
  decide

/-- C2 (amended): date filtering with two supplied dates is inclusive on
both ends, but each endpoint is first converted to the midnight timestamp
of its date: a row survives exactly when its full timestamp lies between
midnight of the start date and midnight of the end date. -/
theorem C2_date_filter_midnight_inclusive (data : List Reading) (s e : Nat)
    (x : Reading) :
    x ∈ applyView data "All" [s, e] none ↔
      x ∈ data ∧ midnight s ≤ x.noted_date ∧ x.noted_date ≤ midnight e := by
  simp [applyView, locationFiltered, dateFiltered, List.mem_filter]

/-! ### C3 -/

/-- C3 counterexample: hourly resampling of readings at minute 0 and minute
120 emits a row for the empty 60-minute bucket in between, carrying a
missing temperature — the claim that no row is emitted for an empty bucket
is false. -/
theorem C3_empty_bucket_row_emitted :
    applyView [⟨0, some 10, "In"⟩, ⟨120, some 20, "In"⟩] "All" [] (some Rule.H) =
      [⟨0, some 10, "In"⟩, ⟨60, none, "In"⟩, ⟨120, some 20, "In"⟩] := by
  rw [applyView_all_some]
  simp [dateFiltered, resampleSeries, listMin, listMax, bucketFloor,
    bucketStep, binsFrom, meanOpt, validVals]

theorem filter_swap (l : List Reading) (p q : Reading → Bool) :
    (l.filter p).filter q = (l.filter q).filter p := by
  rw [List.filter_filter, List.filter_filter]
  exact List.filter_congr fun a _ => Bool.and_comm _ _

/-- C3 (amended): resampling with filter All does emit rows for empty
buckets inside the spanned range, but such a row carries a missing
temperature — never a zero-filled or forward-filled value: whenever the
bucket of an output row holds no source row at all, the output temperature
is the missing value. -/
theorem C3_empty_bucket_missing_temp (data : List Reading) (dr : List Nat)
    (r : Rule) (row : Reading) (h : row ∈ applyView data "All" dr (some r))
    (hempty : (dateFiltered dr data).filter (fun x =>
      bucketFloor r x.noted_date = row.noted_date) = []) :
    row.temp = none := by
  rw [applyView_all_some] at h
  rcases List.mem_append.mp h with h1 | h1 <;>
  · obtain ⟨p, hp, hrow⟩ := List.mem_map.mp h1
    have hnd : row.noted_date = p.1 := by rw [← hrow]
    have ht : row.temp = p.2 := by rw [← hrow]
    have h2 := resampleSeries_snd hp
    rw [filter_swap] at h2
    rw [hnd] at hempty
    rw [hempty] at h2
    simp only [List.filter_nil, List.map_nil] at h2
    rw [ht, h2]
    exact meanOpt_nil

/-- C3 witness: in the counterexample dataset the bucket starting at minute
60 holds no source row, and the emitted row for it has a missing
temperature. -/
theorem C3_empty_bucket_missing_temp_witness :
    ((⟨60, none, "In"⟩ : Reading) ∈
      applyView [⟨0, some 10, "In"⟩, ⟨120, some 20, "In"⟩] "All" []
        (some Rule.H)) ∧
    ((dateFiltered [] [⟨0, some 10, "In"⟩, ⟨120, some 20, "In"⟩]).filter
      (fun x => bucketFloor Rule.H x.noted_date =
        (⟨60, none, "In"⟩ : Reading).noted_date) = []) ∧
    (⟨60, none, "In"⟩ : Reading).temp = none := by
  have hm : (⟨60, none, "In"⟩ : Reading) ∈
      applyView [⟨0, some 10, "In"⟩, ⟨120, some 20, "In"⟩] "All" []
        (some Rule.H) := by
    rw [applyView_all_some]
    simp [dateFiltered, resampleSeries, listMin, listMax, bucketFloor,
      bucketStep, binsFrom, meanOpt, validVals]
  have he : (dateFiltered [] [⟨0, some 10, "In"⟩, ⟨120, some 20, "In"⟩]).filter
      (fun x => bucketFloor Rule.H x.noted_date =
        (⟨60, none, "In"⟩ : Reading).noted_date) = [] := by decide
  exact ⟨hm, he, C3_empty_bucket_missing_temp _ _ _ _ hm he⟩

/-! ### C4 -/

/-- C4 counterexample: a dataset whose latest reading sits at minute 1500
(day 1, 01:00) has full range (day 0, day 1); the end date becomes the
midnight timestamp 1440, so the latest reading is dropped and the view is
not the identity. -/
theorem C4_full_range_not_identity :
    applyView [⟨0, some 10, "In"⟩, ⟨1500, some 20, "Out"⟩] "All"
      (fullRange [⟨0, some 10, "In"⟩, ⟨1500, some 20, "Out"⟩]) none =
      [⟨0, some 10, "In"⟩] := by
  decide

theorem foldl_min_le (xs : List Nat) (a : Nat) : xs.foldl Nat.min a ≤ a := by
  induction xs generalizing a with
  | nil => simp
  | cons x xs ih =>
    simp only [List.foldl_cons]
    exact le_trans (ih (Nat.min a x)) (Nat.min_le_left a x)

theorem foldl_min_le_mem (xs : List Nat) (a : Nat) {x : Nat} (hx : x ∈ xs) :
    xs.foldl Nat.min a ≤ x := by
  induction xs generalizing a with
  | nil => cases hx
  | cons y ys ih =>
    rcases List.mem_cons.mp hx with rfl | hmem
    · simp only [List.foldl_cons]
      exact le_trans (foldl_min_le ys (Nat.min a x)) (Nat.min_le_right a x)
    · simp only [List.foldl_cons]
      exact ih (Nat.min a y) hmem

theorem listMin_le {l : List Nat} {x : Nat} (d : Nat) (hx : x ∈ l) :
    listMin l d ≤ x := by
  cases l with
  | nil => cases hx
  | cons y ys =>
    simp only [listMin]
    rcases List.mem_cons.mp hx with rfl | hmem
    · exact foldl_min_le ys x
    · exact foldl_min_le_mem ys y hmem

theorem foldl_max_ge (xs : List Nat) (a : Nat) : a ≤ xs.foldl Nat.max a := by
  induction xs generalizing a with
  | nil => simp
  | cons x xs ih =>
    simp only [List.foldl_cons]
    exact le_trans (Nat.le_max_left a x) (ih (Nat.max a x))

theorem foldl_max_ge_mem (xs : List Nat) (a : Nat) {x : Nat} (hx : x ∈ xs) :
    x ≤ xs.foldl Nat.max a := by
  induction xs generalizing a with
  | nil => cases hx
  | cons y ys ih =>
    rcases List.mem_cons.mp hx with rfl | hmem
    · simp only [List.foldl_cons]
      exact le_trans (Nat.le_max_right a x) (foldl_max_ge ys (Nat.max a x))
    · simp only [List.foldl_cons]
      exact ih (Nat.max a y) hmem

theorem listMax_ge {l : List Nat} {x : Nat} (d : Nat) (hx : x ∈ l) :
    x ≤ listMax l d := by
  cases l with
  | nil => cases hx
  | cons y ys =>
    simp only [listMax]
    rcases List.mem_cons.mp hx with rfl | hmem
    · exact foldl_max_ge ys x
    · exact foldl_max_ge_mem ys y hmem

/-- C4 (amended): the full-range view with filter All and no resampling is
the identity whenever the latest timestamp of the dataset falls exactly on
a midnight; in general the end date of the default range is truncated to
its midnight, which is what the counterexample exploits. -/
theorem C4_identity_when_max_at_midnight (data : List Reading)
    (hmid : listMax (data.map Reading.noted_date) 0 % 1440 = 0) :
    applyView data "All" (fullRange data) none = data := by
  have h1 : applyView data "All" (fullRange data) none =
      dateFiltered (fullRange data) data := by
    simp [applyView, locationFiltered]
  rw [h1]
  simp only [fullRange, dateFiltered]
  rw [List.filter_eq_self]
  intro a ha
  have hmin := listMin_le (l := data.map Reading.noted_date) 0
    (List.mem_map_of_mem Reading.noted_date ha)
  have hmax := listMax_ge (l := data.map Reading.noted_date) 0
    (List.mem_map_of_mem Reading.noted_date ha)
  simp only [midnight, decide_eq_true_eq]
  constructor
  · exact le_trans (Nat.div_mul_le_self _ 1440) hmin
  · rw [Nat.div_mul_cancel (Nat.dvd_of_mod_eq_zero hmid)]
    exact hmax

/-- C4 witness: a dataset whose latest reading is exactly at the midnight
starting day 1 is returned unchanged by the full-range view. -/
theorem C4_identity_when_max_at_midnight_witness :
    listMax ([⟨0, some 5, "In"⟩, ⟨1440, some 6, "Out"⟩].map
      (Reading.noted_date) : List Nat) 0 % 1440 = 0 ∧
    applyView [⟨0, some 5, "In"⟩, ⟨1440, some 6, "Out"⟩] "All"
      (fullRange [⟨0, some 5, "In"⟩, ⟨1440, some 6, "Out"⟩]) none =
      [⟨0, some 5, "In"⟩, ⟨1440, some 6, "Out"⟩] := by
  exact ⟨by decide, C4_identity_when_max_at_midnight _ (by decide)⟩

/-! ### C5 -/

/-- C5: calculate_statistics returns the error value exactly on an absent
or empty dataset; on a non-empty dataset it returns a summary carrying the
total record count and the global mean, minimum and maximum temperature. -/
theorem C5_stats_none_iff_empty (df : Option (List Reading)) :
    (calculate_statistics df = none ↔ df = none ∨ df = some []) ∧
    (∀ rows, df = some rows → rows ≠ [] →
      ∃ s, calculate_statistics df = some s ∧
        s.total_records = rows.length ∧
        s.avg_temp = meanOpt (rows.map Reading.temp) ∧
        s.min_temp = minOpt (rows.map Reading.temp) ∧
        s.max_temp = maxOpt (rows.map Reading.temp)) := by
  constructor
  · cases df with
    | none => simp [calculate_statistics]
    | some rows =>
      by_cases h : rows = []
      · subst h
        simp [calculate_statistics]
      · simp [calculate_statistics, h]
  · rintro rows rfl hne
    simp only [calculate_statistics]
    rw [if_neg hne]
    exact ⟨_, rfl, rfl, rfl, rfl, rfl⟩

/-- C5 witness: a one-row dataset is not reported empty and its summary
fields are the stated aggregates. -/
theorem C5_stats_none_iff_empty_witness :
    (([(⟨0, some 2, "In"⟩ : Reading)] : List Reading) ≠ []) ∧
    (∃ s, calculate_statistics (some [(⟨0, some 2, "In"⟩ : Reading)]) = some s ∧
      s.total_records = [(⟨0, some 2, "In"⟩ : Reading)].length ∧
      s.avg_temp = meanOpt ([(⟨0, some 2, "In"⟩ : Reading)].map Reading.temp) ∧
      s.min_temp = minOpt ([(⟨0, some 2, "In"⟩ : Reading)].map Reading.temp) ∧
      s.max_temp = maxOpt ([(⟨0, some 2, "In"⟩ : Reading)].map Reading.temp)) := by
  exact ⟨by decide,
    (C5_stats_none_iff_empty (some [⟨0, some 2, "In"⟩])).2 _ rfl (by decide)⟩

/-! ### C6 -/

/-- C6: calculate_statistics partitions the rows by location "In" against
location "Out"; each partition count is the filtered length, and an empty
partition yields the undefined value (not zero) for its mean, minimum and
maximum, while a non-empty partition yields the NaN-skipping mean of its
own temperatures. -/
theorem C6_partition_stats (rows : List Reading) (s : Stats)
    (h : calculate_statistics (some rows) = some s) :
    s.indoor_records = (rows.filter fun x => x.out_in = "In").length ∧
    s.outdoor_records = (rows.filter fun x => x.out_in = "Out").length ∧
    ((rows.filter fun x => x.out_in = "In") = [] ↔ s.avg_indoor_temp = none) ∧
    ((rows.filter fun x => x.out_in = "In") = [] ↔ s.min_indoor_temp = none) ∧
    ((rows.filter fun x => x.out_in = "In") = [] ↔ s.max_indoor_temp = none) ∧
    ((rows.filter fun x => x.out_in = "Out") = [] ↔ s.avg_outdoor_temp = none) ∧
    ((rows.filter fun x => x.out_in = "Out") = [] ↔ s.min_outdoor_temp = none) ∧
    ((rows.filter fun x => x.out_in = "Out") = [] ↔ s.max_outdoor_temp = none) ∧
    ((rows.filter fun x => x.out_in = "In") ≠ [] →
      s.avg_indoor_temp = some (meanOpt ((rows.filter fun x =>
        x.out_in = "In").map Reading.temp))) ∧
    ((rows.filter fun x => x.out_in = "Out") ≠ [] →
      s.avg_outdoor_temp = some (meanOpt ((rows.filter fun x =>
        x.out_in = "Out").map Reading.temp))) := by
  by_cases hne : rows = []
  · subst hne
    simp [calculate_statistics] at h
  · simp only [calculate_statistics] at h
    rw [if_neg hne] at h
    have hs := Option.some.inj h
    subst hs
    refine ⟨rfl, rfl, ?_, ?_, ?_, ?_, ?_, ?_, ?_, ?_⟩ <;>
      · by_cases hIn : (rows.filter fun x => x.out_in = "In") = [] <;>
          by_cases hOut : (rows.filter fun x => x.out_in = "Out") = [] <;>
          simp [hIn, hOut]

/-- C6 witness: the scenario of the specification — temperatures 10, 20, 30
all at location "In" — yields an indoor average of 20, zero outdoor records
and undefined outdoor aggregates. -/
theorem C6_partition_stats_witness :
    calculate_statistics (some ([⟨0, some 10, "In"⟩, ⟨1, some 20, "In"⟩,
      ⟨2, some 30, "In"⟩] : List Reading)) =
      some (⟨3, some 20, some 10, some 30, 3, 0, some (some 20), none,
        some (some 10), none, some (some 30), none⟩ : Stats) ∧
    (⟨3, some 20, some 10, some 30, 3, 0, some (some 20), none,
        some (some 10), none, some (some 30), none⟩ : Stats).outdoor_records =
      (([⟨0, some 10, "In"⟩, ⟨1, some 20, "In"⟩,
        ⟨2, some 30, "In"⟩] : List Reading).filter fun x =>
        x.out_in = "Out").length ∧
    (⟨3, some 20, some 10, some 30, 3, 0, some (some 20), none,
        some (some 10), none, some (some 30), none⟩ : Stats).avg_outdoor_temp =
      none ∧
    (⟨3, some 20, some 10, some 30, 3, 0, some (some 20), none,
        some (some 10), none, some (some 30), none⟩ : Stats).avg_indoor_temp =
      some (meanOpt ((([⟨0, some 10, "In"⟩, ⟨1, some 20, "In"⟩,
        ⟨2, some 30, "In"⟩] : List Reading).filter fun x =>
        x.out_in = "In").map Reading.temp)) := by
  have h0 : calculate_statistics (some ([⟨0, some 10, "In"⟩, ⟨1, some 20, "In"⟩,
      ⟨2, some 30, "In"⟩] : List Reading)) =
      some (⟨3, some 20, some 10, some 30, 3, 0, some (some 20), none,
        some (some 10), none, some (some 30), none⟩ : Stats) := by
    simp [calculate_statistics, meanOpt, minOpt, maxOpt, validVals, min_def,
      max_def]
    norm_num
  have hc := C6_partition_stats _ _ h0
  exact ⟨h0, hc.2.1, (hc.2.2.2.2.2.1).mp (by decide),
    hc.2.2.2.2.2.2.2.2.1 (by decide)⟩

/-! ### Lemmas about the whole-column parse -/

theorem parseAll_some_spec {p : RawTs → Option Nat} :
    ∀ {raw : List RawRow} {ds : List Reading}, parseAll p raw = some ds →
      ds = raw.map (fun r => Reading.mk ((p r.noted_date).getD 0)
        (toNumericCoerce r.temp) r.out_in) := by
  intro raw
  induction raw with
  | nil =>
    intro ds h
    simp only [parseAll] at h
    simp [← Option.some.inj h]
  | cons r rs ih =>
    intro ds h
    simp only [parseAll] at h
    cases hp : p r.noted_date with
    | none => rw [hp] at h; simp at h
    | some t =>
      rw [hp] at h
      cases hrest : parseAll p rs with
      | none => rw [hrest] at h; simp at h
      | some rest =>
        rw [hrest] at h
        simp only at h
        rw [← Option.some.inj h, ih hrest]
        simp [hp]

theorem parseAll_some_of_forall {p : RawTs → Option Nat} :
    ∀ {raw : List RawRow}, (∀ r ∈ raw, (p r.noted_date).isSome) →
      parseAll p raw = some (raw.map (fun r =>
        Reading.mk ((p r.noted_date).getD 0) (toNumericCoerce r.temp)
          r.out_in)) := by
  intro raw
  induction raw with
  | nil => intro _; rfl
  | cons r rs ih =>
    intro h
    obtain ⟨t, ht⟩ := Option.isSome_iff_exists.mp (h r (List.mem_cons_self r rs))
    have hrest := ih fun x hx => h x (List.mem_cons_of_mem r hx)
    simp [parseAll, ht, hrest]

theorem parseAll_eq_none {p : RawTs → Option Nat} :
    ∀ {raw : List RawRow}, (parseAll p raw = none ↔
      ∃ r ∈ raw, p r.noted_date = none) := by
  intro raw
  induction raw with
  | nil => simp [parseAll]
  | cons r rs ih =>
    simp only [parseAll]
    cases hp : p r.noted_date with
    | none => simp [hp]
    | some t =>
      cases hrest : parseAll p rs with
      | none =>
        simp only [hp, hrest]
        have := ih.mp hrest
        simp only [List.mem_cons]
        constructor
        · intro _
          obtain ⟨x, hx, hxn⟩ := this
          exact ⟨x, Or.inr hx, hxn⟩
        · intro _; trivial
      | some rest =>
        simp only [hp, hrest]
        simp only [List.mem_cons]
        constructor
        · intro hcontra; cases hcontra
        · rintro ⟨x, hx | hx, hxn⟩
          · subst hx; rw [hp] at hxn; cases hxn
          · exact absurd (ih.mpr ⟨x, hx, hxn⟩)
              (by rw [hrest]; intro hcontra; cases hcontra)

/-! ### C7 -/

theorem validVals_map_some (vs : List ℚ) : validVals (vs.map some) = vs := by
  simp [validVals]

/-- C7: a successfully normalized dataset has one reading per uploaded row,
the temperature column being the row-local coercion of the raw cells (an
unconvertible cell becomes the missing value, the row is kept); the summary
then counts every row in total_records while the global average is computed
over only the non-missing temperatures. -/
theorem C7_coerced_temp_missing_excluded (raw : List RawRow)
    (ds : List Reading) (h : process_data raw = some ds) :
    ds.length = raw.length ∧
    ds.map Reading.temp = raw.map (fun r => toNumericCoerce r.temp) ∧
    (∀ s, calculate_statistics (some ds) = some s →
      s.total_records = raw.length ∧
      s.avg_temp = meanOpt (raw.map fun r => toNumericCoerce r.temp) ∧
      s.avg_temp = meanOpt (((raw.map fun r =>
        toNumericCoerce r.temp).filterMap id).map some)) := by
  have hds : ds.map Reading.temp = raw.map fun r => toNumericCoerce r.temp := by
    simp only [process_data] at h
    cases hs : parseAll parseStrict raw with
    | some ds0 =>
      rw [hs] at h
      simp only at h
      rw [← Option.some.inj h, parseAll_some_spec hs, List.map_map]
      rfl
    | none =>
      rw [hs] at h
      cases hl : parseAll parseLoose raw with
      | none => rw [hl] at h; simp at h
      | some ds1 =>
        rw [hl] at h
        simp only at h
        rw [← Option.some.inj h, parseAll_some_spec hl, List.map_map]
        rfl
  have hlen : ds.length = raw.length := by
    have := congrArg List.length hds
    simpa using this
  refine ⟨hlen, hds, ?_⟩
  intro s hcs
  by_cases hne : ds = []
  · subst hne
    simp [calculate_statistics] at hcs
  · simp only [calculate_statistics] at hcs
    rw [if_neg hne] at hcs
    have hs := Option.some.inj hcs
    subst hs
    refine ⟨hlen, by rw [hds], ?_⟩
    show meanOpt (ds.map Reading.temp) = _
    rw [hds, meanOpt, meanOpt, validVals_map_some]
    rfl

/-- C7 witness: a two-row upload whose first temperature cell is not
numeric is normalized whole — the bad cell becomes missing — and the
summary counts two records while averaging only the valid reading. -/
theorem C7_coerced_temp_missing_excluded_witness :
    process_data ([⟨RawTs.strictTs 0 0, RawTemp.nonNum, "In"⟩,
      ⟨RawTs.strictTs 1 1, RawTemp.numTemp 10, "In"⟩] : List RawRow) =
      some [⟨0, none, "In"⟩, ⟨1, some 10, "In"⟩] ∧
    (([⟨0, none, "In"⟩, ⟨1, some 10, "In"⟩] : List Reading).length =
      ([⟨RawTs.strictTs 0 0, RawTemp.nonNum, "In"⟩,
        ⟨RawTs.strictTs 1 1, RawTemp.numTemp 10, "In"⟩] : List RawRow).length ∧
    ([⟨0, none, "In"⟩, ⟨1, some 10, "In"⟩] : List Reading).map Reading.temp =
      ([⟨RawTs.strictTs 0 0, RawTemp.nonNum, "In"⟩,
        ⟨RawTs.strictTs 1 1, RawTemp.numTemp 10, "In"⟩] : List RawRow).map
        (fun r => toNumericCoerce r.temp) ∧
    (∀ s, calculate_statistics (some ([⟨0, none, "In"⟩,
        ⟨1, some 10, "In"⟩] : List Reading)) = some s →
      s.total_records = ([⟨RawTs.strictTs 0 0, RawTemp.nonNum, "In"⟩,
        ⟨RawTs.strictTs 1 1, RawTemp.numTemp 10, "In"⟩] : List RawRow).length ∧
      s.avg_temp = meanOpt (([⟨RawTs.strictTs 0 0, RawTemp.nonNum, "In"⟩,
        ⟨RawTs.strictTs 1 1, RawTemp.numTemp 10, "In"⟩] : List RawRow).map
        fun r => toNumericCoerce r.temp) ∧
      s.avg_temp = meanOpt (((([⟨RawTs.strictTs 0 0, RawTemp.nonNum, "In"⟩,
        ⟨RawTs.strictTs 1 1, RawTemp.numTemp 10, "In"⟩] : List RawRow).map
        fun r => toNumericCoerce r.temp).filterMap id).map some))) := by
  have h0 : process_data ([⟨RawTs.strictTs 0 0, RawTemp.nonNum, "In"⟩,
      ⟨RawTs.strictTs 1 1, RawTemp.numTemp 10, "In"⟩] : List RawRow) =
      some [⟨0, none, "In"⟩, ⟨1, some 10, "In"⟩] := by decide
  exact ⟨h0, C7_coerced_temp_missing_excluded _ _ h0⟩

/-! ### C8 -/

/-- C8: normalization fails (returns the error value, committing nothing)
exactly when some timestamp cell survives neither the strict format nor the
permissive fallback; when every cell matches the strict format the whole
column is parsed strictly, and when some cell misses the strict format but
none is unparseable the whole column — every row of it — is re-parsed by
the permissive fallback. -/
theorem C8_timestamp_parse_fallback (raw : List RawRow) :
    (process_data raw = none ↔ ∃ r ∈ raw, r.noted_date = RawTs.badTs) ∧
    ((∀ r ∈ raw, isStrict r.noted_date = true) →
      process_data raw = some (raw.map fun r =>
        Reading.mk (strictVal r.noted_date) (toNumericCoerce r.temp)
          r.out_in)) ∧
    ((∃ r ∈ raw, isStrict r.noted_date = false) →
      (∀ r ∈ raw, r.noted_date ≠ RawTs.badTs) →
      process_data raw = some (raw.map fun r =>
        Reading.mk (looseVal r.noted_date) (toNumericCoerce r.temp)
          r.out_in)) := by
  refine ⟨?_, ?_, ?_⟩
  · constructor
    · intro h
      simp only [process_data] at h
      cases hs : parseAll parseStrict raw with
      | some ds => rw [hs] at h; simp at h
      | none =>
        rw [hs] at h
        cases hl : parseAll parseLoose raw with
        | some ds => rw [hl] at h; simp at h
        | none =>
          obtain ⟨r, hr, hrn⟩ := parseAll_eq_none.mp hl
          refine ⟨r, hr, ?_⟩
          cases hcell : r.noted_date <;> rw [hcell] at hrn <;>
            first | rfl | simp [parseLoose] at hrn
    · rintro ⟨r, hr, hbad⟩
      have hs : parseAll parseStrict raw = none :=
        parseAll_eq_none.mpr ⟨r, hr, by rw [hbad]; rfl⟩
      have hl : parseAll parseLoose raw = none :=
        parseAll_eq_none.mpr ⟨r, hr, by rw [hbad]; rfl⟩
      simp [process_data, hs, hl]
  · intro hstrict
    have hall : ∀ r ∈ raw, (parseStrict r.noted_date).isSome := by
      intro r hr
      cases hcell : r.noted_date with
      | strictTs t tl => rfl
      | looseTs t => have := hstrict r hr; rw [hcell] at this; cases this
      | badTs => have := hstrict r hr; rw [hcell] at this; cases this
    have hs := parseAll_some_of_forall hall
    have hmap : raw.map (fun r => Reading.mk
        ((parseStrict r.noted_date).getD 0) (toNumericCoerce r.temp)
        r.out_in) = raw.map (fun r => Reading.mk (strictVal r.noted_date)
        (toNumericCoerce r.temp) r.out_in) := by
      refine List.map_congr_left fun r hr => ?_
      cases hcell : r.noted_date with
      | strictTs t tl => simp [parseStrict, strictVal]
      | looseTs t => have := hstrict r hr; rw [hcell] at this; cases this
      | badTs => have := hstrict r hr; rw [hcell] at this; cases this
    rw [process_data, hs, hmap]
  · rintro ⟨r, hr, hnostrict⟩ hnobad
    have hs : parseAll parseStrict raw = none := by
      refine parseAll_eq_none.mpr ⟨r, hr, ?_⟩
      cases hcell : r.noted_date with
      | strictTs t tl => rw [hcell] at hnostrict; cases hnostrict
      | looseTs t => rfl
      | badTs => rfl
    have hall : ∀ x ∈ raw, (parseLoose x.noted_date).isSome := by
      intro x hx
      cases hcell : x.noted_date with
      | strictTs t tl => rfl
      | looseTs t => rfl
      | badTs => exact absurd hcell (hnobad x hx)
    have hl := parseAll_some_of_forall hall
    have hmap : raw.map (fun x => Reading.mk
        ((parseLoose x.noted_date).getD 0) (toNumericCoerce x.temp)
        x.out_in) = raw.map (fun x => Reading.mk (looseVal x.noted_date)
        (toNumericCoerce x.temp) x.out_in) := by
      refine List.map_congr_left fun x hx => ?_
      cases hcell : x.noted_date with
      | strictTs t tl => simp [parseLoose, looseVal]
      | looseTs t => simp [parseLoose, looseVal]
      | badTs => exact absurd hcell (hnobad x hx)
    rw [process_data, hs, hl, hmap]

/-- C8 witness: a one-row upload whose timestamp misses the strict format
but parses permissively is normalized whole through the fallback. -/
theorem C8_timestamp_parse_fallback_witness :
    (∃ r ∈ [(⟨RawTs.looseTs 7, RawTemp.numTemp 1, "In"⟩ : RawRow)],
      isStrict r.noted_date = false) ∧
    (∀ r ∈ [(⟨RawTs.looseTs 7, RawTemp.numTemp 1, "In"⟩ : RawRow)],
      r.noted_date ≠ RawTs.badTs) ∧
    process_data ([⟨RawTs.looseTs 7, RawTemp.numTemp 1, "In"⟩] : List RawRow) =
      some (([⟨RawTs.looseTs 7, RawTemp.numTemp 1, "In"⟩] : List RawRow).map
        fun r => Reading.mk (looseVal r.noted_date) (toNumericCoerce r.temp)
          r.out_in) := by
  exact ⟨by decide, by decide,
    (C8_timestamp_parse_fallback _).2.2 (by decide) (by decide)⟩

/-! ### C9 -/

/-- C9 counterexample: with filter "Indoor Only" and hourly resampling the
single output row carries location "Indoor" — the string produced by
stripping " Only" from the filter name — and not the data value "In"
asserted by the claim. -/
theorem C9_tag_is_indoor_not_in :
    applyView [⟨0, some 10, "In"⟩] "Indoor Only" [] (some Rule.H) =
      [⟨0, some 10, "Indoor"⟩] ∧ ("Indoor" : String) ≠ "In" := by
  constructor
  · simp [applyView, locationFiltered, dateFiltered, resampleSeries,
      bucketFloor, bucketStep, listMin, listMax, binsFrom, meanOpt, validVals,
      pyReplace, pyReplaceAux]
  · decide

theorem applyView_indoor_some (data : List Reading) (dr : List Nat)
    (r : Rule) :
    applyView data "Indoor Only" dr (some r) =
      (resampleSeries r (dateFiltered dr (data.filter fun x =>
        x.out_in = "In"))).map fun p => Reading.mk p.1 p.2 "Indoor" := by
  have htag : pyReplace "Indoor Only" " Only" "" = "Indoor" := by decide
  simp [applyView, locationFiltered, htag]

theorem applyView_outdoor_some (data : List Reading) (dr : List Nat)
    (r : Rule) :
    applyView data "Outdoor Only" dr (some r) =
      (resampleSeries r (dateFiltered dr (data.filter fun x =>
        x.out_in = "Out"))).map fun p => Reading.mk p.1 p.2 "Outdoor" := by
  have htag : pyReplace "Outdoor Only" " Only" "" = "Outdoor" := by decide
  simp [applyView, locationFiltered, htag]

/-- C9 (amended): with a single-location filter and a resample bucket, the
engine resamples the one already-filtered series — each output temperature
is the mean over the filtered rows of the output bucket — but tags every
output row with the filter name stripped of " Only": "Indoor" under
"Indoor Only" and "Outdoor" under "Outdoor Only", not "In"/"Out". -/
theorem C9_single_series_tagged (data : List Reading) (dr : List Nat)
    (r : Rule) :
    (∀ row ∈ applyView data "Indoor Only" dr (some r),
      row.out_in = "Indoor" ∧
      row.temp = meanOpt (((dateFiltered dr (data.filter fun x =>
        x.out_in = "In")).filter fun x =>
        bucketFloor r x.noted_date = row.noted_date).map Reading.temp)) ∧
    (∀ row ∈ applyView data "Outdoor Only" dr (some r),
      row.out_in = "Outdoor" ∧
      row.temp = meanOpt (((dateFiltered dr (data.filter fun x =>
        x.out_in = "Out")).filter fun x =>
        bucketFloor r x.noted_date = row.noted_date).map Reading.temp)) := by
  constructor
  · intro row h
    rw [applyView_indoor_some] at h
    obtain ⟨p, hp, rfl⟩ := List.mem_map.mp h
    exact ⟨rfl, by simpa using resampleSeries_snd hp⟩
  · intro row h
    rw [applyView_outdoor_some] at h
    obtain ⟨p, hp, rfl⟩ := List.mem_map.mp h
    exact ⟨rfl, by simpa using resampleSeries_snd hp⟩

/-- C9 witness: filtering a two-location dataset to "Indoor Only" and
resampling hourly yields the row (0, 10, "Indoor"), whose mean ranges over
the indoor series alone. -/
theorem C9_single_series_tagged_witness :
    ((⟨0, some 10, "Indoor"⟩ : Reading) ∈ applyView
      [⟨0, some 10, "In"⟩, ⟨5, some 20, "Out"⟩] "Indoor Only" []
      (some Rule.H)) ∧
    (⟨0, some 10, "Indoor"⟩ : Reading).out_in = "Indoor" ∧
    (⟨0, some 10, "Indoor"⟩ : Reading).temp = meanOpt (((dateFiltered []
      (([⟨0, some 10, "In"⟩, ⟨5, some 20, "Out"⟩] : List Reading).filter
        fun x => x.out_in = "In")).filter fun x =>
      bucketFloor Rule.H x.noted_date =
        (⟨0, some 10, "Indoor"⟩ : Reading).noted_date).map Reading.temp) := by
  have hm : (⟨0, some 10, "Indoor"⟩ : Reading) ∈ applyView
      [⟨0, some 10, "In"⟩, ⟨5, some 20, "Out"⟩] "Indoor Only" []
      (some Rule.H) := by
    rw [applyView_indoor_some]
    simp [dateFiltered, resampleSeries, bucketFloor, bucketStep, listMin,
      listMax, binsFrom, meanOpt, validVals]
  exact ⟨hm, (C9_single_series_tagged _ _ _).1 _ hm⟩

/-! ### C10 -/

/-- C10: rows whose location is neither "In" nor "Out" survive the All
filter when no resampling is requested (the view is then the raw filtered
data), but once a resample bucket is requested every output row of the All
branch is tagged "In" or "Out" — the unknown-location rows are dropped
entirely, because the engine partitions only into the indoor and the
outdoor series before concatenating. -/
theorem C10_unknown_location_rows (data : List Reading) :
    applyView data "All" [] none = data ∧
    (∀ dr r row, row ∈ applyView data "All" dr (some r) →
      row.out_in = "In" ∨ row.out_in = "Out") := by
  constructor
  · simp [applyView, locationFiltered, dateFiltered]
  · intro dr r row h
    rw [applyView_all_some] at h
    rcases List.mem_append.mp h with h1 | h1
    · obtain ⟨p, hp, rfl⟩ := List.mem_map.mp h1
      exact Or.inl rfl
    · obtain ⟨p, hp, rfl⟩ := List.mem_map.mp h1
      exact Or.inr rfl

/-- C10 witness: a dataset with a row at location "Other" is returned whole
by the unresampled All view, while the hourly-resampled All view contains
the indoor bucket row, whose location is "In" or "Out". -/
theorem C10_unknown_location_rows_witness :
    applyView ([⟨0, some 1, "In"⟩, ⟨5, some 2, "Other"⟩] : List Reading)
      "All" [] none = [⟨0, some 1, "In"⟩, ⟨5, some 2, "Other"⟩] ∧
    ((⟨0, some 1, "In"⟩ : Reading) ∈ applyView
      [⟨0, some 1, "In"⟩, ⟨5, some 2, "Other"⟩] "All" [] (some Rule.H)) ∧
    ((⟨0, some 1, "In"⟩ : Reading).out_in = "In" ∨
      (⟨0, some 1, "In"⟩ : Reading).out_in = "Out") := by
  have hm : (⟨0, some 1, "In"⟩ : Reading) ∈ applyView
      [⟨0, some 1, "In"⟩, ⟨5, some 2, "Other"⟩] "All" [] (some Rule.H) := by
    rw [applyView_all_some]
    simp [dateFiltered, resampleSeries, bucketFloor, bucketStep, listMin,
      listMax, binsFrom, meanOpt, validVals]
  exact ⟨(C10_unknown_location_rows _).1, hm,
    (C10_unknown_location_rows _).2 [] Rule.H _ hm⟩

end TempDash
